import Mathlib

/-!
Verification of the `codeless` repository: a shallow embedding of its
retry/convergence control loop, prompt builders, markdown code-fence
extractor, test-result formatting and string utilities, together with
proofs of the specified properties.

Python strings are modelled as `List Char` (a Python `str` is a sequence
of characters).  Line splitting follows the full splitlines contract of
Python (all ten line-boundary code points, with a carriage return directly
followed by a line feed counting as a single break), and stripping follows
the full Python whitespace set.
-/

/-- Python strings modelled as lists of characters. -/
abbrev PyStr := List Char

/-- The backquote character (code point 96) used in markdown fences. -/
def btick : Char := Char.ofNat 96

/-- Characters that the Python strip and rstrip methods remove: the full
Unicode whitespace set of Python (code points 9-13, 28-31, 32, 133, 160,
5760, 8192-8202, 8232, 8233, 8239, 8287 and 12288). -/
def isPySpace (c : Char) : Bool :=
  (9 ≤ c.toNat && c.toNat ≤ 13) || (28 ≤ c.toNat && c.toNat ≤ 32) ||
  c.toNat = 133 || c.toNat = 160 || c.toNat = 5760 ||
  (8192 ≤ c.toNat && c.toNat ≤ 8202) || c.toNat = 8232 || c.toNat = 8233 ||
  c.toNat = 8239 || c.toNat = 8287 || c.toNat = 12288

/-- Characters at which the Python splitlines method breaks a line: line
feed, vertical tab, form feed, carriage return, the three information
separators 28-30, next line (133) and the Unicode line and paragraph
separators (8232, 8233). -/
def isLineBoundary (c : Char) : Bool :=
  (10 ≤ c.toNat && c.toNat ≤ 13) || (28 ≤ c.toNat && c.toNat ≤ 30) ||
  c.toNat = 133 || c.toNat = 8232 || c.toNat = 8233

/-- Python `str.rstrip()`: drop trailing whitespace. -/
def rstrip (l : PyStr) : PyStr :=
  (l.reverse.dropWhile isPySpace).reverse

/-- Python `str.lstrip()`: drop leading whitespace. -/
def lstrip (l : PyStr) : PyStr :=
  l.dropWhile isPySpace

/-- Python `str.strip()`: drop whitespace on both ends. -/
def strip (l : PyStr) : PyStr :=
  lstrip (rstrip l)

/-- The raw line segmentation underlying the Python splitlines method:
split at every line-boundary character, a carriage return immediately
followed by a line feed counting as one break; always returns at least one
(possibly empty) segment, and a trailing boundary yields a trailing empty
segment (which `splitlines` then drops). -/
def lineSegs : PyStr → List PyStr
  | [] => [[]]
  | [c] => if isLineBoundary c then [[], []] else [[c]]
  | c :: d :: rest =>
    if c = '\r' && d = '\n' then [] :: lineSegs rest
    else if isLineBoundary c then [] :: lineSegs (d :: rest)
    else
      match lineSegs (d :: rest) with
      | [] => [[c]]
      | l :: ls => (c :: l) :: ls

/-- Drop a final empty segment, if present. -/
def dropLastEmpty (ls : List PyStr) : List PyStr :=
  match ls.getLast? with
  | some [] => ls.dropLast
  | _ => ls

/-- Python `str.splitlines()`: the empty string gives `[]`, and a trailing
line boundary does not produce a final empty line. -/
def splitlines (s : PyStr) : List PyStr :=
  if s = [] then [] else dropLastEmpty (lineSegs s)

/-- Python `'\n'.join(lines)`. -/
def joinNl : List PyStr → PyStr
  | [] => []
  | [l] => l
  | l :: ls => l ++ '\n' :: joinNl ls

/-- Executable substring test: does `pat` occur contiguously in the string? -/
def hasSeq (pat : PyStr) : PyStr → Bool
  | [] => pat.isEmpty
  | c :: rest => pat.isPrefixOf (c :: rest) || hasSeq pat rest

/-- The bare closing fence. -/
def closingFence : PyStr := [btick, btick, btick]

/-- The opening fence for a language tag. -/
def openingFence (language : PyStr) : PyStr := closingFence ++ language

/-- Model of `wrap_code_in_markdown` in the agents utilities: emits
the opening fence plus tag, the code, the bare closing fence, and a blank line. -/
def wrap_code_in_markdown (code : PyStr) (language : PyStr) : PyStr :=
  openingFence language ++ '\n' :: (code ++ '\n' :: (closingFence ++ ['\n', '\n']))

/-- The capture phase of `extract_code`: once the opening fence was seen,
collect lines (each right-stripped) until a line whose stripped form is the
bare closing fence. -/
def collectLines : List PyStr → List PyStr
  | [] => []
  | l :: rest =>
    if strip l = closingFence then []
    else rstrip l :: collectLines rest

/-- The scan phase of `extract_code`: find the first line whose stripped
form is the opening fence for the language, then capture. -/
def findFence (language : PyStr) : List PyStr → List PyStr
  | [] => []
  | l :: rest =>
    if strip l = openingFence language then collectLines rest
    else findFence language rest

/-- Model of `extract_code` in the agents utilities: scan `content` line by line for the
first fenced block tagged `language`, and return its lines joined by `'\n'`. -/
def extract_code (content : PyStr) (language : PyStr) : PyStr :=
  joinNl (findFence language (splitlines content))

/-- The default language tag python used throughout the agents. -/
def pythonTag : PyStr := "python".toList

/-! ## `src/utils.py`: camel_to_snake -/

/-- Membership in the regex class `[a-z]` (ASCII 97..122). -/
def isLowerAZ (c : Char) : Bool := 97 ≤ c.toNat && c.toNat ≤ 122

/-- Membership in the regex class `[A-Z]` (ASCII 65..90). -/
def isUpperAZ (c : Char) : Bool := 65 ≤ c.toNat && c.toNat ≤ 90

/-- Python `str.lower()` on the ASCII range: `A`..`Z` shift by 32, other
characters unchanged. -/
def pyLower (c : Char) : Char :=
  if isUpperAZ c then Char.ofNat (c.toNat + 32) else c

/-- Does `_SNAKE_CASE_PATTERN` match at the zero-width position between
`prev` and the remaining text?  The three alternatives are
`(?<=[a-z])(?=[A-Z])`, `(?<=[A-Z])(?=[A-Z][a-z])` and
`(?<=[a-z])(?=[A-Z]{2,})`. -/
def sepHere (prev : Char) : PyStr → Bool
  | [] => false
  | c1 :: rest =>
    (isLowerAZ prev && isUpperAZ c1) ||
    (isUpperAZ prev && isUpperAZ c1 &&
      (match rest with | c2 :: _ => isLowerAZ c2 | [] => false)) ||
    (isLowerAZ prev && isUpperAZ c1 &&
      (match rest with | c2 :: _ => isUpperAZ c2 | [] => false))

/-- The substitution of the zero-width pattern with an underscore, scanning left to right;
a match can only sit between two characters (both lookbehind and lookahead
need a character), so the scan carries the previous character along. -/
def camelSubAux (prev : Char) : PyStr → PyStr
  | [] => []
  | c :: rest =>
    if sepHere prev (c :: rest) then '_' :: c :: camelSubAux c rest
    else c :: camelSubAux c rest

/-- The full pattern substitution over a string: no position strictly before the
first character can match. -/
def camelSub : PyStr → PyStr
  | [] => []
  | c :: rest => c :: camelSubAux c rest

/-- Model of `camel_to_snake` in the shared utilities: substitute an underscore at the camel-case
boundaries, then lower-case. -/
def camel_to_snake (text : PyStr) : PyStr :=
  (camelSub text).map pyLower

/-! ## `src/agents`: data model and prompt builders -/

/-- The `GenerationAttempt` record: one historical attempt, its code and the diagnostic
for which it was rejected. -/
structure GenerationAttempt where
  code : PyStr
  errors : PyStr
deriving DecidableEq

instance : Inhabited GenerationAttempt := ⟨⟨[], []⟩⟩

/-- The `ImplGenerationRequest` record: interface, target test suite, prior attempts. -/
structure ImplGenerationRequest where
  interface_str : PyStr
  test_str : PyStr
  prior_attempts : List GenerationAttempt
deriving DecidableEq

/-- The `TestGenerationRequest` record: interface and prior attempts. -/
structure TestGenerationRequest where
  interface_str : PyStr
  prior_attempts : List GenerationAttempt
deriving DecidableEq

/-- The single-quote character (code point 39), used in transcribed prompt text. -/
def sqChar : Char := Char.ofNat 39

/-- The dedented `example_impl` block of `ImplGenerator._make_initial_prompt`. -/
def exampleImplBlock : PyStr :=
  "\nfrom my_interface import MyInterface\n\nclass MyInterfaceImpl(MyInterface):\n    # This is an example implementation provided to the LLM to demonstrate the expected format.\n    def __init__(self, message: str):\n        super().__init__()\n        self._message = message\n\n    def foo(self) -> str:\n        return self._message\n".toList

/-- Instruction text of `ImplGenerator._make_initial_prompt` before the interface. -/
def implInitTxt1 : PyStr :=
  "Generate an implementation of the following python interface:\n\n".toList

/-- Instruction text of `ImplGenerator._make_initial_prompt` between the interface and the test suite. -/
def implInitTxt2 : PyStr :=
  "Make sure the name of the class ends with \"Impl\", and it inherits from the interface. ".toList ++
  "The code you will generate is *not* an abstract class, and does *not* have any `@abstractmethod` annotations. ".toList ++
  "The interface itself already exists in the same directory, so do not add it here. ".toList ++
  "The test suite that should pass looks like this:\n\n".toList

/-- Instruction text of `ImplGenerator._make_initial_prompt` before the example. -/
def implInitTxt3 : PyStr :=
  "An example implementation might look something like this:\n\n".toList

/-- Model of the initial prompt builder of `ImplGenerator`: instruction text around the fenced
interface, target test suite and example implementation. -/
def impl_make_initial_prompt (python_interface : PyStr) (test_str : PyStr) : PyStr :=
  implInitTxt1 ++
    (wrap_code_in_markdown python_interface pythonTag ++
      (implInitTxt2 ++
        (wrap_code_in_markdown test_str pythonTag ++
          (implInitTxt3 ++ wrap_code_in_markdown exampleImplBlock pythonTag))))

/-- Opening text of `ImplGenerator._make_improvement_prompt`. -/
def implImprovTxt1 : PyStr :=
  "You were previously asked to generate an implementation of the following python interface:\n\n".toList

/-- Text of `ImplGenerator._make_improvement_prompt` before the prior attempt. -/
def implImprovTxt2 : PyStr :=
  "Your response was as follows:\n\n".toList

/-- Text of `ImplGenerator._make_improvement_prompt` between the prior attempt and the test suite. -/
def implImprovTxt3 : PyStr :=
  "Your instructions were to make sure the name of the class ends with \"Impl\", and it inherits from the interface. ".toList ++
  "You can assume the interface exists the same directory as the implementation being generated. ".toList ++
  "The test suite that was run looks like this:\n\n".toList

/-- Text of `ImplGenerator._make_improvement_prompt` before the diagnostic. -/
def implImprovTxt4 : PyStr :=
  "When the tests were run, the following output indicates some problems:".toList

/-- Closing text of `ImplGenerator._make_improvement_prompt`. -/
def implImprovTxt5 : PyStr :=
  "\n\n".toList ++
  "Please generate a new implementation according to the same instructions, ".toList ++
  "and make sure the problems are addressed so that all tests pass.".toList

/-- Model of the improvement prompt builder of `ImplGenerator`: same directives plus the code of
the most recent prior attempt (`prior_attempts[-1]`) and its diagnostic. -/
def impl_make_improvement_prompt (python_interface : PyStr) (test_str : PyStr)
    (prior_attempts : List GenerationAttempt) : PyStr :=
  implImprovTxt1 ++
    (wrap_code_in_markdown python_interface pythonTag ++
      (implImprovTxt2 ++
        (wrap_code_in_markdown (prior_attempts.getLastD default).code pythonTag ++
          (implImprovTxt3 ++
            (wrap_code_in_markdown test_str pythonTag ++
              (implImprovTxt4 ++
                (closingFence ++
                  ('\n' :: ((prior_attempts.getLastD default).errors ++
                    ('\n' :: (closingFence ++ implImprovTxt5)))))))))))

/-- The prompt chosen by `ImplGenerator.str_to_str`: the improvement prompt
when `request.prior_attempts` is non-empty (Python truthiness), otherwise the
initial prompt. -/
def impl_prompt_for_request (r : ImplGenerationRequest) : PyStr :=
  match r.prior_attempts with
  | [] => impl_make_initial_prompt r.interface_str r.test_str
  | _ :: _ => impl_make_improvement_prompt r.interface_str r.test_str r.prior_attempts

/-- The dedented `example_test` block of `TestGenerator._make_initial_prompt`. -/
def exampleTestBlock : PyStr :=
  "\nimport unittest\nfrom my_interface import MyInterface\nfrom my_interface_impl import MyInterfaceImpl\n\nclass MyInterfaceTest(unittest.TestCase):\n    def setUp(self):\n        self._my_interface: MyInterface = MyInterfaceImpl()\n\n    def test_foo_returns_empty_for_empty_input(self):\n        self.assertEmpty(self._my_interface_impl.foo(".toList ++
  [sqChar, sqChar] ++ "))\n\nif __name__ == ".toList ++ [sqChar] ++ "__main__".toList ++ [sqChar] ++
  ":\n    unittest.main()\n".toList

/-- Opening text shared by both `TestGenerator` prompts. -/
def testTxtCommon : PyStr :=
  "Generate a test suite for the following code. ".toList ++
  "The test suite should be a class that inherits from `unittest.TestCase`, ".toList ++
  "and you should assume both the implementation and the interface already exists, ".toList ++
  "and they are both in the same directory as the test being generated. ".toList ++
  "The `setUp` method always instantiates an implementation of the interface.\n".toList

/-- Text of `TestGenerator._make_initial_prompt` before the example. -/
def testInitTxt1 : PyStr :=
  testTxtCommon ++
  "Here is an example output for a hypothetical interface called `MyInterface`:\n".toList

/-- Text of `TestGenerator._make_initial_prompt` before the interface. -/
def testInitTxt2 : PyStr :=
  "Now generate a test suite in the same style, for testing the interface provided ".toList ++
  "below. Make sure to cover edge cases, happy paths and error handling:\n\n".toList

/-- Model of the initial prompt builder of `TestGenerator`. -/
def test_make_initial_prompt (interface_str : PyStr) : PyStr :=
  testInitTxt1 ++
    (wrap_code_in_markdown exampleTestBlock pythonTag ++
      (testInitTxt2 ++ wrap_code_in_markdown interface_str pythonTag))

/-- Text of `TestGenerator._make_improvement_prompt` before the prior attempt. -/
def testImprovTxt1 : PyStr :=
  testTxtCommon ++
  "Your previous attempt failed. You generated the following test: ".toList

/-- Text of `TestGenerator._make_improvement_prompt` before the error. -/
def testImprovTxt2 : PyStr :=
  "And this caused the following error:\n\n".toList

/-- Closing text of `TestGenerator._make_improvement_prompt` before the interface. -/
def testImprovTxt3 : PyStr :=
  "\n\n".toList ++
  "Please try again, trying to fix the above errors. ".toList ++
  "The code that is being tested is as follows:\n\n".toList

/-- Model of the improvement prompt builder of `TestGenerator`: the previous test code
(`prior_attempts[-1]`) and its error, then the interface. -/
def test_make_improvement_prompt (python_interface : PyStr)
    (prior_attempts : List GenerationAttempt) : PyStr :=
  testImprovTxt1 ++
    (wrap_code_in_markdown (prior_attempts.getLastD default).code pythonTag ++
      (testImprovTxt2 ++
        (closingFence ++
          ('\n' :: ((prior_attempts.getLastD default).errors ++
            ('\n' :: (closingFence ++
              (testImprovTxt3 ++ wrap_code_in_markdown python_interface pythonTag))))))))

/-- The prompt chosen by `TestGenerator.str_to_str`. -/
def test_prompt_for_request (r : TestGenerationRequest) : PyStr :=
  match r.prior_attempts with
  | [] => test_make_initial_prompt r.interface_str
  | _ :: _ => test_make_improvement_prompt r.interface_str r.prior_attempts

/-! ## The collaborators (generation capability and test-execution oracle)

The generation capability and the test runner are external collaborators:
`main.py` and `start.py` call them and use only the returned text and the
`(passed, diagnostic)` pair.  They are modelled as streams indexed by the
number of calls made so far, which captures every possible (also
nondeterministic) collaborator behaviour of a single run. -/

structure Collab where
  testGen : Nat → PyStr
  implGen : Nat → PyStr
  oracle : Nat → Bool × PyStr

/-! ## `src/main.py` `main`: the refinement controller -/

/-- The controller-visible session state of `main` in the main module: the current
test-suite text, the implementation text last written to the impl file, the
last oracle verdict and diagnostic, and how many collaborator calls were
made.  The two round budgets `num_impl_rounds` and `num_test_rounds` are
integer variables of the loop and are threaded as explicit arguments of the
loop functions below. -/
structure SessState where
  testStr : PyStr
  implFileStr : PyStr
  testsPass : Bool
  testOutput : PyStr
  testGenCalls : Nat
  implGenCalls : Nat
  oracleCalls : Nat
deriving DecidableEq

/-- One oracle consultation of the controller, updating verdict and diagnostic. -/
def runOracleStep (c : Collab) (s : SessState) : SessState :=
  { s with testsPass := (c.oracle s.oracleCalls).fst,
           testOutput := (c.oracle s.oracleCalls).snd,
           oracleCalls := s.oracleCalls + 1 }

/-- The inner loop of `main.py` (lines 151-158):
`while not tests_pass and num_impl_rounds > 0`, generate a new
implementation, write it to the impl file, rerun the tests and decrement
`num_impl_rounds`.  Returns the final state and the remaining value of
`num_impl_rounds`. -/
def innerLoop (c : Collab) : SessState → Nat → SessState × Nat
  | s, 0 => (s, 0)
  | s, n + 1 =>
    if s.testsPass then (s, n + 1)
    else
      let s1 := { s with implFileStr := c.implGen s.implGenCalls,
                         implGenCalls := s.implGenCalls + 1 }
      innerLoop c (runOracleStep c s1) n

/-- The test-regeneration tail of an outer round of `main.py`
(lines 163-164): regenerate the test suite with `test_gen.str_to_file`
(writing the test file) and rerun the tests. -/
def regenStep (c : Collab) (s : SessState) : SessState :=
  runOracleStep c
    { s with testStr := c.testGen s.testGenCalls,
             testGenCalls := s.testGenCalls + 1 }

/-- The outer loop of `main.py` (lines 150-166):
`while not tests_pass and num_test_rounds > 0`, run the inner loop; on
success break; otherwise regenerate tests, rerun, set `num_impl_rounds = 5`
and decrement `num_test_rounds`.  Returns the final state together with the
final values of `num_impl_rounds` and `num_test_rounds`. -/
def outerLoop (c : Collab) : SessState → Nat → Nat → SessState × Nat × Nat
  | s, ir, 0 => (s, ir, 0)
  | s, ir, t + 1 =>
    if s.testsPass then (s, ir, t + 1)
    else
      match innerLoop c s ir with
      | (s1, ir1) =>
        if s1.testsPass then (s1, ir1, t + 1)
        else outerLoop c (regenStep c s1) 5 t

/-- The state after the initial sequence of `main.py` (lines 141-143):
one test generation, one implementation generation, one oracle run. -/
def initState (c : Collab) : SessState :=
  { testStr := c.testGen 0,
    implFileStr := c.implGen 0,
    testsPass := (c.oracle 0).fst,
    testOutput := (c.oracle 0).snd,
    testGenCalls := 1,
    implGenCalls := 1,
    oracleCalls := 1 }

/-- The whole refinement session of `main.py`: initial round, then the outer
loop with `num_impl_rounds = 3` and `num_test_rounds = 10` (lines 148-149). -/
def runSession (c : Collab) : SessState × Nat × Nat :=
  outerLoop c (initState c) 3 10

/-- The two terminal states of the controller. -/
inductive SessionOutcome where
  | success
  | exhausted
deriving DecidableEq

/-- The terminal report of `main.py` (lines 169-172): success is announced
exactly when `num_test_rounds > 0` on exit. -/
def sessionResult (c : Collab) : SessionOutcome :=
  match runSession c with
  | (_, _, t) => if t > 0 then .success else .exhausted

/-! ## `src/start.py` `ProjectEventHandler.impl_iteration_loop` -/

/-- The state of `impl_iteration_loop`: the last generated implementation,
the last oracle verdict and diagnostic, the accumulated `attempts` history,
and the collaborator call counts. -/
structure ImplLoopState where
  implStr : PyStr
  testsPass : Bool
  testOutput : PyStr
  attempts : List GenerationAttempt
  implGenCalls : Nat
  oracleCalls : Nat
deriving DecidableEq

/-- One oracle consultation inside `impl_iteration_loop`. -/
def implOracleStep (c : Collab) (s : ImplLoopState) : ImplLoopState :=
  { s with testsPass := (c.oracle s.oracleCalls).fst,
           testOutput := (c.oracle s.oracleCalls).snd,
           oracleCalls := s.oracleCalls + 1 }

/-- The retry loop of `impl_iteration_loop` (start.py lines 207-219):
`while not tests_pass and attempts_count < max_attempts`, append
`GenerationAttempt(code=impl_str, errors=test_output)` to the history,
generate a new implementation from a request carrying the history, and rerun
the tests.  The fuel argument is `max_attempts - attempts_count`. -/
def impl_iteration_loop (c : Collab) : ImplLoopState → Nat → ImplLoopState
  | s, 0 => s
  | s, n + 1 =>
    if s.testsPass then s
    else
      let s1 := { s with attempts := s.attempts ++ [GenerationAttempt.mk s.implStr s.testOutput] }
      let s2 := { s1 with implStr := c.implGen s1.implGenCalls,
                          implGenCalls := s1.implGenCalls + 1 }
      impl_iteration_loop c (implOracleStep c s2) n

/-- A full run of `impl_iteration_loop`: initial generation, initial test
run, then the retry loop with `max_attempts = 5` and `attempts_count = 0`. -/
def runImplSession (c : Collab) : ImplLoopState :=
  impl_iteration_loop c
    { implStr := c.implGen 0,
      testsPass := (c.oracle 0).fst,
      testOutput := (c.oracle 0).snd,
      attempts := [],
      implGenCalls := 1,
      oracleCalls := 1 } 5

/-! ## `run_tests` (identical in `src/main.py` and `src/start.py`) -/

/-- What the controller reads off a `unittest.TextTestResult`: the
`wasSuccessful()` verdict and the `(test, err)` pairs of `result.errors` and
`result.failures`.  `wasSuccessful` is kept as an independent field because
it is computed by the external `unittest` library (it is false also when
only `unexpectedSuccesses` is non-empty, with `errors` and `failures` both
empty). -/
structure TextTestResult where
  wasSuccessful : Bool
  errors : List (PyStr × PyStr)
  failures : List (PyStr × PyStr)
deriving DecidableEq

/-- The `Errors:` block of the `run_tests` diagnostic: header plus, for each
erroring test, its identifier line and its error line (empty when
`result.errors` is empty). -/
def errorLines (r : TextTestResult) : List PyStr :=
  if r.errors = [] then []
  else "\nErrors:".toList ::
    (r.errors.map (fun p => ["  Test: ".toList ++ p.fst, "  Error: ".toList ++ p.snd])).flatten

/-- The `Failures:` block of the `run_tests` diagnostic. -/
def failureLines (r : TextTestResult) : List PyStr :=
  if r.failures = [] then []
  else "\nFailures:".toList ::
    (r.failures.map (fun p => ["  Test: ".toList ++ p.fst, "  Failure: ".toList ++ p.snd])).flatten

/-- The diagnostic formatting of `run_tests`: passed with an empty string on success,
otherwise every error and every failure, each with its test identifier and
detail, joined by newlines. -/
def run_tests (r : TextTestResult) : Bool × PyStr :=
  if r.wasSuccessful then (true, [])
  else (false, joinNl (errorLines r ++ failureLines r))

/-! ## Concrete collaborator stubs used to instantiate the theorems -/

/-- A collaborator whose oracle always fails with diagnostic `"boom"`. -/
def cFail : Collab :=
  { testGen := fun _ => "test-code".toList,
    implGen := fun _ => "impl-code".toList,
    oracle := fun _ => (false, "boom".toList) }

/-- A collaborator whose oracle reports success on every run. -/
def cPass : Collab :=
  { testGen := fun _ => "test-code".toList,
    implGen := fun _ => "impl-code".toList,
    oracle := fun _ => (true, []) }

/-- An oracle that reports failure on every invocation. -/
def alwaysFails (c : Collab) : Prop := ∀ n, (c.oracle n).fst = false

/-! ## Helper lemmas about the `main.py` controller -/

theorem innerLoop_fst_testGenCalls (c : Collab) :
    ∀ (n : Nat) (s : SessState), ((innerLoop c s n).1).testGenCalls = s.testGenCalls := by
  intro n
  induction n with
  | zero => intro s; rfl
  | succ n ih =>
    intro s
    rw [innerLoop]
    by_cases hp : s.testsPass
    · simp [hp]
    · simp [hp, ih, runOracleStep]

theorem innerLoop_fst_testsPass (c : Collab) (h : alwaysFails c) :
    ∀ (n : Nat) (s : SessState), s.testsPass = false →
      ((innerLoop c s n).1).testsPass = false := by
  intro n
  induction n with
  | zero => intro s hs; exact hs
  | succ n ih =>
    intro s hs
    rw [innerLoop]
    simp only [hs]
    simp only [Bool.false_eq_true, if_false]
    exact ih _ (by simp [runOracleStep, h _])

theorem regenStep_testsPass (c : Collab) (h : alwaysFails c) (s : SessState) :
    (regenStep c s).testsPass = false := by
  simp [regenStep, runOracleStep, h _]

theorem outerLoop_exhausts (c : Collab) (h : alwaysFails c) :
    ∀ (t : Nat) (s : SessState) (ir : Nat), s.testsPass = false →
      (outerLoop c s ir t).2.2 = 0 := by
  intro t
  induction t with
  | zero => intro s ir hs; rfl
  | succ t ih =>
    intro s ir hs
    rw [outerLoop]
    simp only [hs, Bool.false_eq_true, if_false]
    rcases hinner : innerLoop c s ir with ⟨s1, ir1⟩
    have h1 : s1.testsPass = false := by
      have := innerLoop_fst_testsPass c h ir s hs
      rw [hinner] at this
      exact this
    simp only [h1, Bool.false_eq_true, if_false]
    exact ih _ _ (regenStep_testsPass c h s1)

theorem outerLoop_testGenCalls_le (c : Collab) :
    ∀ (t : Nat) (s : SessState) (ir : Nat),
      ((outerLoop c s ir t).1).testGenCalls ≤ s.testGenCalls + t := by
  intro t
  induction t with
  | zero => intro s ir; exact Nat.le_add_right _ _
  | succ t ih =>
    intro s ir
    rw [outerLoop]
    by_cases hp : s.testsPass
    · simp only [hp, if_true]
      exact Nat.le_add_right _ _
    · have hpf : s.testsPass = false := by simpa using hp
      simp only [hpf, Bool.false_eq_true, if_false]
      rcases hinner : innerLoop c s ir with ⟨s1, ir1⟩
      have hcalls : s1.testGenCalls = s.testGenCalls := by
        have := innerLoop_fst_testGenCalls c ir s
        rw [hinner] at this
        exact this
      by_cases h1 : s1.testsPass
      · simp only [h1, if_true]
        omega
      · have hf : s1.testsPass = false := by simpa using h1
        simp only [hf]
        have := ih (regenStep c s1) 5
        have hr : (regenStep c s1).testGenCalls = s1.testGenCalls + 1 := rfl
        simp only [Bool.false_eq_true, if_false]
        omega

/-- C1: for every collaborator whose oracle reports success on its first
invocation, the controller of the main module ends in the success terminal state after
exactly one test generation, one implementation generation and one test run,
entering neither retry loop. -/
theorem first_pass_immediate_success (c : Collab) (h : (c.oracle 0).fst = true) :
    sessionResult c = SessionOutcome.success ∧
      (runSession c).1.testGenCalls = 1 ∧
      (runSession c).1.implGenCalls = 1 ∧
      (runSession c).1.oracleCalls = 1 := by
  have hs : (initState c).testsPass = true := by simp [initState, h]
  have hrun : runSession c = (initState c, 3, 10) := by
    rw [runSession, outerLoop]
    simp [hs]
  refine ⟨?_, ?_, ?_, ?_⟩ <;> simp [sessionResult, hrun, initState]

/-- Witness for C1 at the always-passing stub collaborator. -/
theorem first_pass_immediate_success_witness :
    (cPass.oracle 0).fst = true ∧
      (sessionResult cPass = SessionOutcome.success ∧
        (runSession cPass).1.testGenCalls = 1 ∧
        (runSession cPass).1.implGenCalls = 1 ∧
        (runSession cPass).1.oracleCalls = 1) :=
  ⟨rfl, first_pass_immediate_success cPass rfl⟩

theorem innerLoop_implGenCalls_le (c : Collab) :
    ∀ (n : Nat) (s : SessState),
      ((innerLoop c s n).1).implGenCalls ≤ s.implGenCalls + n := by
  intro n
  induction n with
  | zero => intro s; exact Nat.le_add_right _ _
  | succ n ih =>
    intro s
    rw [innerLoop]
    by_cases hp : s.testsPass
    · simp only [hp, if_true]
      exact Nat.le_add_right _ _
    · have hpf : s.testsPass = false := by simpa using hp
      simp only [hpf, Bool.false_eq_true, if_false]
      refine le_trans (ih _) ?_
      simp only [runOracleStep]
      omega

theorem outerLoop_implGenCalls_le (c : Collab) :
    ∀ (t : Nat) (s : SessState) (ir : Nat),
      ((outerLoop c s ir t).1).implGenCalls ≤ s.implGenCalls + ir + 5 * t := by
  intro t
  induction t with
  | zero =>
    intro s ir
    show s.implGenCalls ≤ s.implGenCalls + ir + 5 * 0
    omega
  | succ t ih =>
    intro s ir
    rw [outerLoop]
    by_cases hp : s.testsPass
    · simp only [hp, if_true]
      omega
    · have hpf : s.testsPass = false := by simpa using hp
      simp only [hpf, Bool.false_eq_true, if_false]
      rcases hinner : innerLoop c s ir with ⟨s1, ir1⟩
      have hcalls : s1.implGenCalls ≤ s.implGenCalls + ir := by
        have := innerLoop_implGenCalls_le c ir s
        rw [hinner] at this
        exact this
      by_cases h1 : s1.testsPass
      · simp only [h1, if_true]
        omega
      · have hf : s1.testsPass = false := by simpa using h1
        simp only [hf, Bool.false_eq_true, if_false]
        have := ih (regenStep c s1) 5
        have hr : (regenStep c s1).implGenCalls = s1.implGenCalls := rfl
        omega

/-- C3: the controller always terminates within its budgets — at most 10
test regenerations ever happen (`testGenCalls ≤ 11` counting the initial
one) and at most 54 implementation generations; whenever it stops with the
outer budget at zero it reports the exhausted terminal state; and for an
oracle that always reports failure it does stop exhausted, reporting that
it gave up. -/
theorem session_bounded_and_exhausts (c : Collab) :
    (runSession c).1.testGenCalls ≤ 11 ∧
      (runSession c).1.implGenCalls ≤ 54 ∧
      ((runSession c).2.2 = 0 → sessionResult c = SessionOutcome.exhausted) ∧
      (alwaysFails c → sessionResult c = SessionOutcome.exhausted) := by
  refine ⟨?_, ?_, ?_, ?_⟩
  · have := outerLoop_testGenCalls_le c 10 (initState c) 3
    have hinit : (initState c).testGenCalls = 1 := rfl
    rw [runSession]
    omega
  · have := outerLoop_implGenCalls_le c 10 (initState c) 3
    have hinit : (initState c).implGenCalls = 1 := rfl
    rw [runSession]
    omega
  · intro h0
    rw [sessionResult]
    rcases hrun : runSession c with ⟨s, ir, t⟩
    rw [hrun] at h0
    simp at h0
    simp [h0]
  · intro h
    have hs : (initState c).testsPass = false := by simp [initState, h 0]
    have := outerLoop_exhausts c h 10 (initState c) 3 hs
    rw [sessionResult]
    rcases hrun : runSession c with ⟨s, ir, t⟩
    rw [runSession] at hrun
    rw [hrun] at this
    simp at this
    simp [this]

/-- Witness for C3 at the always-failing stub collaborator. -/
theorem session_bounded_and_exhausts_witness :
    (runSession cFail).1.testGenCalls ≤ 11 ∧
      (runSession cFail).1.implGenCalls ≤ 54 ∧
      sessionResult cFail = SessionOutcome.exhausted :=
  ⟨(session_bounded_and_exhausts cFail).1,
   (session_bounded_and_exhausts cFail).2.1,
   (session_bounded_and_exhausts cFail).2.2.2 (fun _ => rfl)⟩

/-- Counterexample to C2 as stated: with the always-failing oracle, the
session ends with a remaining implementation budget of 5 after 49 implementation
generations happen.  If each test regeneration reset the budget to its
original value 3, the remaining budget could never exceed 3 at any point
after the first round, and an exhausted session would perform exactly
1 + 10*3 = 31 implementation generations. -/
theorem impl_budget_reset_counterexample :
    (runSession cFail).2.1 = 5 ∧
      (runSession cFail).2.2 = 0 ∧
      (runSession cFail).1.implGenCalls = 49 ∧
      (initState cFail).testsPass = false := by
  refine ⟨?_, ?_, ?_, ?_⟩ <;> decide

/-- C2 amended: when the implementation budget is exhausted for the current
test suite (the inner loop returns with the tests still failing), the next
outer round starts with an implementation budget of 5 — a hard-coded
constant, not the original session value 3 that `runSession` begins
with. -/
theorem impl_budget_resets_to_five (c : Collab) (s : SessState) (ir t : Nat)
    (hs : s.testsPass = false)
    (h1 : ((innerLoop c s ir).1).testsPass = false) :
    outerLoop c s ir (t + 1) =
        outerLoop c (regenStep c ((innerLoop c s ir).1)) 5 t ∧
      runSession c = outerLoop c (initState c) 3 10 := by
  constructor
  · rw [outerLoop]
    rcases hinner : innerLoop c s ir with ⟨s1, ir1⟩
    rw [hinner] at h1
    have h1f : s1.testsPass = false := by simpa using h1
    simp only [hs, h1f, Bool.false_eq_true, if_false]
  · rfl

/-- Witness for the amended C2 at the first test regeneration of the
always-failing collaborator. -/
theorem impl_budget_resets_to_five_witness :
    (initState cFail).testsPass = false ∧
      ((innerLoop cFail (initState cFail) 3).1).testsPass = false ∧
      (outerLoop cFail (initState cFail) 3 10 =
          outerLoop cFail (regenStep cFail ((innerLoop cFail (initState cFail) 3).1)) 5 9 ∧
        runSession cFail = outerLoop cFail (initState cFail) 3 10) :=
  ⟨by decide, by decide,
   impl_budget_resets_to_five cFail (initState cFail) 3 9 (by decide) (by decide)⟩

/-! ## Helper lemmas about the implementation retry loop of the watcher module -/

theorem getD_append_left {α : Type} [Inhabited α] (l l' : List α) (i : Nat)
    (h : i < l.length) : (l ++ l').getD i default = l.getD i default := by
  simp [List.getD_eq_getElem?_getD, List.getElem?_append_left h]

theorem getD_append_length {α : Type} [Inhabited α] (l : List α) (a : α) :
    (l ++ [a]).getD l.length default = a := by
  simp [List.getD_eq_getElem?_getD, List.getElem?_append_right (Nat.le_refl _)]

theorem impl_iteration_loop_attempts (c : Collab) :
    ∀ (n : Nat) (s : ImplLoopState),
      s.implGenCalls = s.attempts.length + 1 →
      s.oracleCalls = s.attempts.length + 1 →
      s.implStr = c.implGen s.attempts.length →
      s.testOutput = (c.oracle s.attempts.length).snd →
      (∀ i, i < s.attempts.length →
        s.attempts.getD i default = GenerationAttempt.mk (c.implGen i) (c.oracle i).snd) →
      ∀ i, i < (impl_iteration_loop c s n).attempts.length →
        (impl_iteration_loop c s n).attempts.getD i default =
          GenerationAttempt.mk (c.implGen i) (c.oracle i).snd := by
  intro n
  induction n with
  | zero => intro s _ _ _ _ hinv; exact hinv
  | succ n ih =>
    intro s hg ho hi hto hinv
    rw [impl_iteration_loop]
    by_cases hp : s.testsPass
    · simp only [hp, if_true]
      exact hinv
    · have hpf : s.testsPass = false := by simpa using hp
      simp only [hpf, Bool.false_eq_true, if_false]
      apply ih
      · simp [implOracleStep, hg]
      · simp [implOracleStep, ho]
      · simp [implOracleStep, hg]
      · simp [implOracleStep, ho]
      · intro i hilt
        simp only [implOracleStep, List.length_append, List.length_cons,
          List.length_nil] at hilt ⊢
        rcases Nat.lt_or_ge i s.attempts.length with hlt | hge
        · rw [getD_append_left _ _ _ hlt]
          exact hinv i hlt
        · have hieq : i = s.attempts.length := by omega
          subst hieq
          rw [getD_append_length]
          rw [hi, hto]

/-- C4: in the watcher module function `impl_iteration_loop`, every recorded generation
attempt pairs the implementation text produced by the generation call it
followed with the diagnostic the oracle returned for exactly that text; in
particular, after every retry the most recently appended record holds the
just-rejected code and its just-returned diagnostic, never a stale value. -/
theorem impl_retry_attempt_fresh (c : Collab) (i : Nat)
    (hi : i < (runImplSession c).attempts.length) :
    (runImplSession c).attempts.getD i default =
      GenerationAttempt.mk (c.implGen i) (c.oracle i).snd := by
  apply impl_iteration_loop_attempts c 5 _ rfl rfl rfl rfl _ i hi
  intro j hj
  simp at hj

/-- Witness for C4: the first recorded attempt in an always-failing run. -/
theorem impl_retry_attempt_fresh_witness :
    0 < (runImplSession cFail).attempts.length ∧
      (runImplSession cFail).attempts.getD 0 default =
        GenerationAttempt.mk (cFail.implGen 0) (cFail.oracle 0).snd :=
  ⟨by decide, impl_retry_attempt_fresh cFail 0 (by decide)⟩

/-! ## Helper lemmas about `camel_to_snake` -/

theorem pyLower_not_upper (c : Char) : isUpperAZ (pyLower c) = false := by
  unfold pyLower
  by_cases h : isUpperAZ c
  · simp only [h, if_true]
    unfold isUpperAZ at h ⊢
    simp only [Bool.and_eq_true, decide_eq_true_eq] at h
    obtain ⟨h1, h2⟩ := h
    have hv : (c.toNat + 32).isValidChar := Or.inl (by omega)
    have hval : (Char.ofNat (c.toNat + 32)).toNat = c.toNat + 32 := by
      rw [Char.ofNat, dif_pos hv]
      rfl
    rw [hval]
    simp
    omega
  · simp only [h, if_false]
    simpa using h

theorem pyLower_fix (c : Char) (h : isUpperAZ c = false) : pyLower c = c := by
  unfold pyLower
  simp [h]

theorem sepHere_of_not_upper (prev : Char) (l : PyStr)
    (h : ∀ c ∈ l, isUpperAZ c = false) : sepHere prev l = false := by
  cases l with
  | nil => rfl
  | cons c1 rest =>
    have h1 : isUpperAZ c1 = false := h c1 (List.mem_cons_self _ _)
    unfold sepHere
    simp [h1]

theorem camelSubAux_fix (l : PyStr) : ∀ (prev : Char),
    (∀ c ∈ l, isUpperAZ c = false) → camelSubAux prev l = l := by
  induction l with
  | nil => intro prev _; rfl
  | cons c rest ih =>
    intro prev h
    unfold camelSubAux
    rw [sepHere_of_not_upper prev (c :: rest) h]
    simp only [Bool.false_eq_true, if_false]
    rw [ih c (fun x hx => h x (List.mem_cons_of_mem _ hx))]

theorem camelSub_fix (l : PyStr) (h : ∀ c ∈ l, isUpperAZ c = false) :
    camelSub l = l := by
  cases l with
  | nil => rfl
  | cons c rest =>
    show c :: camelSubAux c rest = c :: rest
    rw [camelSubAux_fix rest c (fun x hx => h x (List.mem_cons_of_mem _ hx))]

/-- C10: `camel_to_snake` of `src/utils.py` is idempotent — its output
contains no upper-case ASCII letter, the separator pattern only fires on an
upper-case lookahead, and lower-casing fixes already-lower-cased text. -/
theorem camel_to_snake_idem (text : PyStr) :
    camel_to_snake (camel_to_snake text) = camel_to_snake text := by
  unfold camel_to_snake
  have hlow : ∀ c ∈ (camelSub text).map pyLower, isUpperAZ c = false := by
    intro c hc
    obtain ⟨a, _, ha⟩ := List.mem_map.mp hc
    rw [← ha]
    exact pyLower_not_upper a
  rw [camelSub_fix _ hlow]
  rw [List.map_congr_left (fun a ha => pyLower_fix a (hlow a ha))]
  exact List.map_id _

/-! ## Helper lemmas about line splitting, joining and stripping -/

theorem boundary_isPySpace (c : Char) (h : isLineBoundary c = true) :
    isPySpace c = true := by
  simp only [isLineBoundary, isPySpace, Bool.or_eq_true, Bool.and_eq_true,
    decide_eq_true_eq] at h ⊢
  omega

theorem getLast?_ne_of_forall (l : PyStr) (p : Char) (h : ∀ c ∈ l, c ≠ p) :
    l.getLast? ≠ some p := by
  induction l with
  | nil => simp
  | cons c rest ih =>
    cases rest with
    | nil =>
      simp only [List.getLast?_singleton]
      intro he
      exact h c (List.mem_cons_self _ _) (by injection he)
    | cons d rest2 =>
      rw [List.getLast?_cons_cons]
      exact ih (fun x hx => h x (List.mem_cons_of_mem _ hx))

theorem lineSegs_cons_bd (c : Char) (ys : PyStr)
    (hb : isLineBoundary c = true) (hc : c ≠ '\r') :
    lineSegs (c :: ys) = [] :: lineSegs ys := by
  cases ys with
  | nil => simp [lineSegs, hb]
  | cons d ys2 => simp [lineSegs, hb, hc]

theorem lineSegs_cons_cr (ys : PyStr) (h : ys.head? ≠ some '\n') :
    lineSegs ('\r' :: ys) = [] :: lineSegs ys := by
  cases ys with
  | nil => decide
  | cons d ys2 =>
    have hd : ¬ d = '\n' := fun he => h (by simp [he])
    simp [lineSegs, hd, show isLineBoundary '\r' = true from by decide]

theorem lineSegs_cons_nb (c : Char) (ys : PyStr) (l : PyStr) (ls : List PyStr)
    (hb : isLineBoundary c = false) (hs : lineSegs ys = l :: ls) :
    lineSegs (c :: ys) = (c :: l) :: ls := by
  have hc : ¬ c = '\r' := fun he => by
    subst he
    exact absurd hb (by decide)
  cases ys with
  | nil =>
    have h0 : ([[]] : List PyStr) = l :: ls := hs
    injection h0 with h1 h2
    subst h1
    subst h2
    simp [lineSegs, hb]
  | cons d ys2 =>
    simp only [lineSegs, hc, hb, Bool.false_eq_true, if_false, false_and,
      Bool.and_eq_true, decide_eq_true_eq, decide_eq_true, Bool.and_eq_false_iff]
    rw [show lineSegs (d :: ys2) = l :: ls from hs]

theorem lineSegs_ne_nil (s : PyStr) : lineSegs s ≠ [] := by
  induction s with
  | nil => decide
  | cons c rest ih =>
    by_cases hb : isLineBoundary c
    · by_cases hc : c = '\r'
      · subst hc
        cases rest with
        | nil => decide
        | cons d rest2 =>
          by_cases hd : d = '\n'
          · subst hd
            rw [show lineSegs ('\r' :: '\n' :: rest2) = [] :: lineSegs rest2
              from rfl]
            exact List.cons_ne_nil _ _
          · rw [lineSegs_cons_cr (d :: rest2) (by simp [hd])]
            exact List.cons_ne_nil _ _
      · rw [lineSegs_cons_bd c rest hb hc]
        exact List.cons_ne_nil _ _
    · have hbf : isLineBoundary c = false := by simpa using hb
      cases hs : lineSegs rest with
      | nil => exact absurd hs ih
      | cons l ls =>
        rw [lineSegs_cons_nb c rest l ls hbf hs]
        exact List.cons_ne_nil _ _

theorem getLast?_tail_ne (c : Char) (xs : PyStr) (p : Char)
    (h : (c :: xs).getLast? ≠ some p) : xs.getLast? ≠ some p := by
  cases xs with
  | nil => simp
  | cons d xs2 =>
    rw [List.getLast?_cons_cons] at h
    exact h

theorem lineSegs_append_nl (xs : PyStr) :
    xs.getLast? ≠ some '\r' → ∀ ys : PyStr,
      lineSegs (xs ++ '\n' :: ys) = lineSegs xs ++ lineSegs ys := by
  induction xs with
  | nil =>
    intro _ ys
    rw [List.nil_append, lineSegs_cons_bd '\n' ys (by decide) (by decide)]
    rfl
  | cons c xs ih =>
    intro h ys
    have hlast : xs.getLast? ≠ some '\r' := getLast?_tail_ne c xs '\r' h
    by_cases hc : c = '\r'
    · subst hc
      cases xs with
      | nil => exact absurd rfl h
      | cons d xs2 =>
        by_cases hd : d = '\n'
        · subst hd
          have hkey := ih hlast ys
          simp only [List.cons_append] at hkey
          rw [lineSegs_cons_bd '\n' (xs2 ++ '\n' :: ys) (by decide) (by decide),
            lineSegs_cons_bd '\n' xs2 (by decide) (by decide)] at hkey
          simp only [List.cons_append] at hkey
          have hkey2 : lineSegs (xs2 ++ '\n' :: ys) =
              lineSegs xs2 ++ lineSegs ys := by
            injection hkey
          rw [show ('\r' :: '\n' :: xs2) ++ '\n' :: ys =
              '\r' :: '\n' :: (xs2 ++ '\n' :: ys) from rfl]
          rw [show lineSegs ('\r' :: '\n' :: (xs2 ++ '\n' :: ys)) =
              [] :: lineSegs (xs2 ++ '\n' :: ys) from rfl]
          rw [show lineSegs ('\r' :: '\n' :: xs2) = [] :: lineSegs xs2 from rfl]
          rw [hkey2]
          rfl
        · rw [show ('\r' :: (d :: xs2)) ++ '\n' :: ys =
              '\r' :: ((d :: xs2) ++ '\n' :: ys) from rfl]
          rw [lineSegs_cons_cr ((d :: xs2) ++ '\n' :: ys) (by simp [hd]),
            lineSegs_cons_cr (d :: xs2) (by simp [hd]),
            ih hlast ys]
          rfl
    · by_cases hb : isLineBoundary c
      · rw [show (c :: xs) ++ '\n' :: ys = c :: (xs ++ '\n' :: ys) from rfl,
          lineSegs_cons_bd c (xs ++ '\n' :: ys) hb hc,
          lineSegs_cons_bd c xs hb hc,
          ih hlast ys]
        rfl
      · have hbf : isLineBoundary c = false := by simpa using hb
        cases hs : lineSegs xs with
        | nil => exact absurd hs (lineSegs_ne_nil xs)
        | cons l ls =>
          have h1 : lineSegs (xs ++ '\n' :: ys) = l :: (ls ++ lineSegs ys) := by
            rw [ih hlast ys, hs]
            rfl
          rw [show (c :: xs) ++ '\n' :: ys = c :: (xs ++ '\n' :: ys) from rfl,
            lineSegs_cons_nb c (xs ++ '\n' :: ys) l (ls ++ lineSegs ys) hbf h1,
            lineSegs_cons_nb c xs l ls hbf hs]
          rfl

theorem lineSegs_no_boundary (xs : PyStr)
    (h : ∀ c ∈ xs, isLineBoundary c = false) : lineSegs xs = [xs] := by
  induction xs with
  | nil => rfl
  | cons c rest ih =>
    rw [lineSegs_cons_nb c rest rest []
      (h c (List.mem_cons_self _ _))
      (ih (fun x hx => h x (List.mem_cons_of_mem _ hx)))]

theorem joinNl_lineSegs (s : PyStr)
    (h : ∀ c ∈ s, isLineBoundary c = true → c = '\n') :
    joinNl (lineSegs s) = s := by
  induction s with
  | nil => rfl
  | cons c rest ih =>
    have ihr := ih (fun x hx => h x (List.mem_cons_of_mem _ hx))
    by_cases hb : isLineBoundary c
    · have hcn : c = '\n' := h c (List.mem_cons_self _ _) hb
      subst hcn
      rw [lineSegs_cons_bd '\n' rest hb (by decide)]
      cases hs : lineSegs rest with
      | nil => exact absurd hs (lineSegs_ne_nil rest)
      | cons l ls =>
        rw [hs] at ihr
        show joinNl ([] :: l :: ls) = '\n' :: rest
        show [] ++ '\n' :: joinNl (l :: ls) = '\n' :: rest
        rw [List.nil_append, ihr]
    · have hbf : isLineBoundary c = false := by simpa using hb
      cases hs : lineSegs rest with
      | nil => exact absurd hs (lineSegs_ne_nil rest)
      | cons l ls =>
        rw [hs] at ihr
        rw [lineSegs_cons_nb c rest l ls hbf hs]
        cases ls with
        | nil =>
          show c :: l = c :: rest
          rw [show joinNl [l] = l from rfl] at ihr
          rw [ihr]
        | cons l2 ls2 =>
          show (c :: l) ++ '\n' :: joinNl (l2 :: ls2) = c :: rest
          rw [show joinNl (l :: l2 :: ls2) = l ++ '\n' :: joinNl (l2 :: ls2)
            from rfl] at ihr
          rw [List.cons_append, ihr]

theorem map_fix {α : Type} (f : α → α) :
    ∀ (l : List α), (∀ a ∈ l, f a = a) → l.map f = l := by
  intro l
  induction l with
  | nil => intro _; rfl
  | cons a as ih =>
    intro h
    simp only [List.map_cons]
    rw [h a (List.mem_cons_self _ _), ih (fun x hx => h x (List.mem_cons_of_mem _ hx))]

theorem rstrip_no_space (l : PyStr) (h : ∀ c ∈ l, isPySpace c = false) :
    rstrip l = l := by
  unfold rstrip
  cases hr : l.reverse with
  | nil =>
    have hl : l = [] := by simpa using congrArg List.reverse hr
    simp [hl]
  | cons a as =>
    have ha : isPySpace a = false := by
      apply h
      rw [← List.mem_reverse, hr]
      exact List.mem_cons_self _ _
    rw [List.dropWhile_cons_of_neg (by simp [ha])]
    rw [← hr, List.reverse_reverse]

theorem strip_no_space (l : PyStr) (h : ∀ c ∈ l, isPySpace c = false) :
    strip l = l := by
  unfold strip lstrip
  rw [rstrip_no_space l h]
  cases l with
  | nil => rfl
  | cons a as =>
    have ha : isPySpace a = false := h a (List.mem_cons_self _ _)
    rw [List.dropWhile_cons_of_neg (by simp [ha])]

theorem strip_openingFence (lang : PyStr) (h : ∀ c ∈ lang, isPySpace c = false) :
    strip (openingFence lang) = openingFence lang := by
  apply strip_no_space
  intro c hc
  rcases List.mem_append.mp hc with hc | hc
  · fin_cases hc <;> decide
  · exact h c hc

theorem no_boundary_openingFence (lang : PyStr)
    (h : ∀ c ∈ lang, isPySpace c = false) :
    ∀ c ∈ openingFence lang, isLineBoundary c = false := by
  intro c hc
  rcases List.mem_append.mp hc with hc | hc
  · fin_cases hc <;> decide
  · by_contra hb
    have hb2 : isLineBoundary c = true := by simpa using hb
    have := boundary_isPySpace c hb2
    rw [h c hc] at this
    exact absurd this (by decide)

/-! ## Helper lemmas about the fence scanner -/

theorem collectLines_append_close (L rest : List PyStr)
    (h : ∀ l ∈ L, strip l ≠ closingFence) :
    collectLines (L ++ closingFence :: rest) = L.map rstrip := by
  induction L with
  | nil =>
    simp only [List.nil_append, collectLines]
    rw [if_pos (by decide : strip closingFence = closingFence)]
    rfl
  | cons l ls ih =>
    simp only [List.cons_append, collectLines]
    rw [if_neg (h l (List.mem_cons_self _ _))]
    simp only [List.append_eq]
    rw [ih (fun x hx => h x (List.mem_cons_of_mem _ hx))]
    rfl

theorem collectLines_no_close (L : List PyStr)
    (h : ∀ l ∈ L, strip l ≠ closingFence) :
    collectLines L = L.map rstrip := by
  induction L with
  | nil => rfl
  | cons l ls ih =>
    simp only [collectLines]
    rw [if_neg (h l (List.mem_cons_self _ _))]
    rw [ih (fun x hx => h x (List.mem_cons_of_mem _ hx))]
    rfl

theorem findFence_skip (lang : PyStr) (pre rest : List PyStr)
    (h : ∀ l ∈ pre, strip l ≠ openingFence lang) :
    findFence lang (pre ++ rest) = findFence lang rest := by
  induction pre with
  | nil => rfl
  | cons p ps ih =>
    simp only [List.cons_append, findFence]
    rw [if_neg (h p (List.mem_cons_self _ _))]
    exact ih (fun x hx => h x (List.mem_cons_of_mem _ hx))

theorem findFence_none (lang : PyStr) (L : List PyStr)
    (h : ∀ l ∈ L, strip l ≠ openingFence lang) :
    findFence lang L = [] := by
  have := findFence_skip lang L [] h
  rw [List.append_nil] at this
  rw [this]
  rfl

theorem splitlines_wrap (code lang : PyStr)
    (hlang : ∀ c ∈ lang, isPySpace c = false)
    (hbound : ∀ c ∈ code, isLineBoundary c = true → c = '\n') :
    splitlines (wrap_code_in_markdown code lang) =
      openingFence lang :: (lineSegs code ++ [closingFence, []]) := by
  unfold splitlines
  have hne : wrap_code_in_markdown code lang ≠ [] := by
    unfold wrap_code_in_markdown openingFence closingFence
    simp
  rw [if_neg hne]
  have hcr : ∀ c ∈ code, c ≠ '\r' := by
    intro c hc he
    subst he
    exact absurd (hbound _ hc (by decide)) (by decide)
  have hlangcr : ∀ c ∈ openingFence lang, c ≠ '\r' := by
    intro c hc he
    subst he
    exact absurd (no_boundary_openingFence lang hlang _ hc) (by decide)
  have h1 : lineSegs (wrap_code_in_markdown code lang) =
      openingFence lang :: (lineSegs code ++ [closingFence, [], []]) := by
    unfold wrap_code_in_markdown
    rw [lineSegs_append_nl (openingFence lang)
      (getLast?_ne_of_forall _ _ hlangcr) _]
    rw [lineSegs_append_nl code (getLast?_ne_of_forall _ _ hcr) _]
    rw [lineSegs_no_boundary (openingFence lang)
      (no_boundary_openingFence lang hlang)]
    rw [show lineSegs (closingFence ++ ['\n', '\n']) = [closingFence, [], []]
      from by decide]
    simp
  rw [h1]
  have hsplit : openingFence lang :: (lineSegs code ++ [closingFence, [], []]) =
      (openingFence lang :: (lineSegs code ++ [closingFence, []])) ++ [[]] := by
    simp
  have h3 : (openingFence lang :: (lineSegs code ++ [closingFence, [], []])).getLast? =
      some [] := by
    rw [hsplit]
    exact List.getLast?_concat _
  have h2 : (openingFence lang :: (lineSegs code ++ [closingFence, [], []])).dropLast =
      openingFence lang :: (lineSegs code ++ [closingFence, []]) := by
    rw [hsplit]
    exact List.dropLast_concat
  simp only [dropLastEmpty, h3]
  exact h2

/-- C7 amended: the round trip `extract(wrap(code, L), L) = code` holds for
every code string that contains no line-boundary character other than the
line feed (Python splitlines also breaks at carriage return, vertical tab,
form feed, the separators 28-30, next line and the Unicode line and
paragraph separators, and the extractor joins with line feeds only), none
of whose lines strips to the bare closing fence, and none of whose lines
carries trailing whitespace (the extractor right-strips every captured
line), for every whitespace-free language tag. -/
theorem extract_wrap_roundtrip (code lang : PyStr)
    (hlang : ∀ c ∈ lang, isPySpace c = false)
    (hbound : ∀ c ∈ code, isLineBoundary c = true → c = '\n')
    (hcode : ∀ l ∈ lineSegs code, strip l ≠ closingFence ∧ rstrip l = l) :
    extract_code (wrap_code_in_markdown code lang) lang = code := by
  unfold extract_code
  rw [splitlines_wrap code lang hlang hbound]
  show joinNl (findFence lang (openingFence lang ::
    (lineSegs code ++ [closingFence, []]))) = code
  simp only [findFence]
  rw [if_pos (strip_openingFence lang hlang)]
  rw [show lineSegs code ++ [closingFence, []] =
      lineSegs code ++ closingFence :: [[]] from rfl]
  rw [collectLines_append_close _ _ (fun l hl => (hcode l hl).1)]
  rw [map_fix rstrip (lineSegs code) (fun l hl => (hcode l hl).2)]
  exact joinNl_lineSegs code hbound

/-- Counterexample to C7 as stated: the code string `"a "` contains no
closing-fence sequence, yet wrapping and extracting yields `"a"`: the
extractor right-strips each captured line. -/
theorem extract_wrap_roundtrip_counterexample :
    hasSeq closingFence ['a', ' '] = false ∧
      extract_code (wrap_code_in_markdown ['a', ' '] pythonTag) pythonTag ≠
        ['a', ' '] := by
  refine ⟨by decide, by decide⟩

/-- Witness for the amended C7 on a two-line code string. -/
theorem extract_wrap_roundtrip_witness :
    (∀ c ∈ pythonTag, isPySpace c = false) ∧
      (∀ c ∈ "a\nb".toList, isLineBoundary c = true → c = '\n') ∧
      (∀ l ∈ lineSegs "a\nb".toList, strip l ≠ closingFence ∧ rstrip l = l) ∧
      extract_code (wrap_code_in_markdown "a\nb".toList pythonTag) pythonTag =
        "a\nb".toList :=
  ⟨by decide, by decide, by decide,
   extract_wrap_roundtrip _ _ (by decide) (by decide) (by decide)⟩

/-- C8 amended: (a) when the first line stripping to the opening fence for
`L` is followed by no line stripping to the bare closing fence, `extract`
returns all lines after that opening fence through end of input, each
right-stripped of trailing whitespace, joined with newlines (not the raw
character-for-character remainder); (b) when no line of the content strips
to the opening fence for `L`, `extract` returns the empty string. -/
theorem extract_fence_behaviour :
    (∀ (content lang : PyStr) (pre : List PyStr) (fl : PyStr) (rest : List PyStr),
      splitlines content = pre ++ fl :: rest →
      (∀ l ∈ pre, strip l ≠ openingFence lang) →
      strip fl = openingFence lang →
      (∀ l ∈ rest, strip l ≠ closingFence) →
      extract_code content lang = joinNl (rest.map rstrip)) ∧
    (∀ (content lang : PyStr),
      (∀ l ∈ splitlines content, strip l ≠ openingFence lang) →
      extract_code content lang = []) := by
  constructor
  · intro content lang pre fl rest hsplit hpre hfl hrest
    unfold extract_code
    rw [hsplit]
    rw [findFence_skip lang pre (fl :: rest) hpre]
    simp only [findFence]
    rw [if_pos hfl]
    rw [collectLines_no_close rest hrest]
  · intro content lang h
    unfold extract_code
    rw [findFence_none lang _ h]
    rfl

/-- Counterexample to C8 as stated: the content `"```python\na "` has an
opening fence on its first line and no closing fence after it, but
`extract` returns `"a"`, not the full remainder `"a "` after the opening
fence — each captured line is right-stripped. -/
theorem extract_fence_behaviour_counterexample :
    splitlines ("```python\na ").toList = [openingFence pythonTag, ['a', ' ']] ∧
      strip ['a', ' '] ≠ closingFence ∧
      extract_code ("```python\na ").toList pythonTag = ['a'] ∧
      (['a'] : PyStr) ≠ ['a', ' '] := by
  refine ⟨by decide, by decide, by decide, by decide⟩

/-- Witness for the amended C8 on concrete inputs for both parts. -/
theorem extract_fence_behaviour_witness :
    extract_code ("```python\nxy\n".toList) pythonTag = "xy".toList ∧
      extract_code ("no fences here".toList) pythonTag = [] := by
  constructor
  · have h := extract_fence_behaviour.1 ("```python\nxy\n".toList) pythonTag []
      (openingFence pythonTag) ["xy".toList] (by decide) (by decide) (by decide)
      (by decide)
    rw [h]
    decide
  · exact extract_fence_behaviour.2 ("no fences here".toList) pythonTag (by decide)

/-- C5: for a request with at least one prior attempt, both prompt builders
embed the code text and the errors text of the last (most recent) prior
attempt verbatim in their output, whatever the earlier attempts are. -/
theorem improvement_prompt_uses_last_attempt
    (r : ImplGenerationRequest) (r2 : TestGenerationRequest)
    (h : r.prior_attempts ≠ []) (h2 : r2.prior_attempts ≠ []) :
    (∃ u v, impl_prompt_for_request r =
        u ++ (r.prior_attempts.getLastD default).code ++ v) ∧
    (∃ u v, impl_prompt_for_request r =
        u ++ (r.prior_attempts.getLastD default).errors ++ v) ∧
    (∃ u v, test_prompt_for_request r2 =
        u ++ (r2.prior_attempts.getLastD default).code ++ v) ∧
    (∃ u v, test_prompt_for_request r2 =
        u ++ (r2.prior_attempts.getLastD default).errors ++ v) := by
  have hip : impl_prompt_for_request r =
      impl_make_improvement_prompt r.interface_str r.test_str r.prior_attempts := by
    rcases hr : r.prior_attempts with _ | ⟨a, as⟩
    · exact absurd hr h
    · simp [impl_prompt_for_request, hr, impl_make_improvement_prompt]
  have htp : test_prompt_for_request r2 =
      test_make_improvement_prompt r2.interface_str r2.prior_attempts := by
    rcases hr : r2.prior_attempts with _ | ⟨a, as⟩
    · exact absurd hr h2
    · simp [test_prompt_for_request, hr, test_make_improvement_prompt]
  refine ⟨⟨implImprovTxt1 ++ wrap_code_in_markdown r.interface_str pythonTag ++
      implImprovTxt2 ++ openingFence pythonTag ++ ['\n'],
      '\n' :: (closingFence ++ ['\n', '\n']) ++
        (implImprovTxt3 ++ (wrap_code_in_markdown r.test_str pythonTag ++
          (implImprovTxt4 ++ (closingFence ++
            ('\n' :: ((r.prior_attempts.getLastD default).errors ++
              ('\n' :: (closingFence ++ implImprovTxt5)))))))), ?_⟩,
    ⟨implImprovTxt1 ++ wrap_code_in_markdown r.interface_str pythonTag ++
      implImprovTxt2 ++
      wrap_code_in_markdown (r.prior_attempts.getLastD default).code pythonTag ++
      implImprovTxt3 ++ wrap_code_in_markdown r.test_str pythonTag ++
      implImprovTxt4 ++ closingFence ++ ['\n'],
      '\n' :: (closingFence ++ implImprovTxt5), ?_⟩,
    ⟨testImprovTxt1 ++ openingFence pythonTag ++ ['\n'],
      '\n' :: (closingFence ++ ['\n', '\n']) ++
        (testImprovTxt2 ++ (closingFence ++
          ('\n' :: ((r2.prior_attempts.getLastD default).errors ++
            ('\n' :: (closingFence ++ (testImprovTxt3 ++
              wrap_code_in_markdown r2.interface_str pythonTag))))))), ?_⟩,
    ⟨testImprovTxt1 ++
      wrap_code_in_markdown (r2.prior_attempts.getLastD default).code pythonTag ++
      testImprovTxt2 ++ closingFence ++ ['\n'],
      '\n' :: (closingFence ++ (testImprovTxt3 ++
        wrap_code_in_markdown r2.interface_str pythonTag)), ?_⟩⟩ <;>
    simp [hip, htp, impl_make_improvement_prompt, test_make_improvement_prompt,
      wrap_code_in_markdown, List.append_assoc]

/-- Witness for C5 on a concrete two-attempt request pair. -/
theorem improvement_prompt_uses_last_attempt_witness :
    (ImplGenerationRequest.mk "iface-i".toList "tests-i".toList
        [GenerationAttempt.mk "old-code".toList "old-err".toList,
         GenerationAttempt.mk "new-code".toList "new-err".toList]).prior_attempts ≠ [] ∧
    (TestGenerationRequest.mk "iface-t".toList
        [GenerationAttempt.mk "t-old".toList "e-old".toList,
         GenerationAttempt.mk "t-new".toList "e-new".toList]).prior_attempts ≠ [] ∧
    ((∃ u v, impl_prompt_for_request
        (ImplGenerationRequest.mk "iface-i".toList "tests-i".toList
          [GenerationAttempt.mk "old-code".toList "old-err".toList,
           GenerationAttempt.mk "new-code".toList "new-err".toList]) =
        u ++ ((ImplGenerationRequest.mk "iface-i".toList "tests-i".toList
          [GenerationAttempt.mk "old-code".toList "old-err".toList,
           GenerationAttempt.mk "new-code".toList "new-err".toList]).prior_attempts.getLastD
            default).code ++ v) ∧
      (∃ u v, impl_prompt_for_request
        (ImplGenerationRequest.mk "iface-i".toList "tests-i".toList
          [GenerationAttempt.mk "old-code".toList "old-err".toList,
           GenerationAttempt.mk "new-code".toList "new-err".toList]) =
        u ++ ((ImplGenerationRequest.mk "iface-i".toList "tests-i".toList
          [GenerationAttempt.mk "old-code".toList "old-err".toList,
           GenerationAttempt.mk "new-code".toList "new-err".toList]).prior_attempts.getLastD
            default).errors ++ v) ∧
      (∃ u v, test_prompt_for_request
        (TestGenerationRequest.mk "iface-t".toList
          [GenerationAttempt.mk "t-old".toList "e-old".toList,
           GenerationAttempt.mk "t-new".toList "e-new".toList]) =
        u ++ ((TestGenerationRequest.mk "iface-t".toList
          [GenerationAttempt.mk "t-old".toList "e-old".toList,
           GenerationAttempt.mk "t-new".toList "e-new".toList]).prior_attempts.getLastD
            default).code ++ v) ∧
      (∃ u v, test_prompt_for_request
        (TestGenerationRequest.mk "iface-t".toList
          [GenerationAttempt.mk "t-old".toList "e-old".toList,
           GenerationAttempt.mk "t-new".toList "e-new".toList]) =
        u ++ ((TestGenerationRequest.mk "iface-t".toList
          [GenerationAttempt.mk "t-old".toList "e-old".toList,
           GenerationAttempt.mk "t-new".toList "e-new".toList]).prior_attempts.getLastD
            default).errors ++ v)) :=
  ⟨by decide, by decide,
   improvement_prompt_uses_last_attempt _ _ (by decide) (by decide)⟩

/-- C6: for a request with no prior attempts, both prompt builders produce
the initial prompt — a function of the interface (and, for implementations,
the target test suite) alone, referencing no prior attempt — and that prompt
embeds the interface text verbatim. -/
theorem initial_prompt_uses_interface
    (r : ImplGenerationRequest) (r2 : TestGenerationRequest)
    (h : r.prior_attempts = []) (h2 : r2.prior_attempts = []) :
    impl_prompt_for_request r = impl_make_initial_prompt r.interface_str r.test_str ∧
    (∃ u v, impl_prompt_for_request r = u ++ r.interface_str ++ v) ∧
    test_prompt_for_request r2 = test_make_initial_prompt r2.interface_str ∧
    (∃ u v, test_prompt_for_request r2 = u ++ r2.interface_str ++ v) := by
  have hip : impl_prompt_for_request r =
      impl_make_initial_prompt r.interface_str r.test_str := by
    simp [impl_prompt_for_request, h]
  have htp : test_prompt_for_request r2 =
      test_make_initial_prompt r2.interface_str := by
    simp [test_prompt_for_request, h2]
  refine ⟨hip,
    ⟨implInitTxt1 ++ openingFence pythonTag ++ ['\n'],
      '\n' :: (closingFence ++ ['\n', '\n']) ++
        (implInitTxt2 ++ (wrap_code_in_markdown r.test_str pythonTag ++
          (implInitTxt3 ++ wrap_code_in_markdown exampleImplBlock pythonTag))), ?_⟩,
    htp,
    ⟨testInitTxt1 ++ wrap_code_in_markdown exampleTestBlock pythonTag ++
      testInitTxt2 ++ openingFence pythonTag ++ ['\n'],
      '\n' :: (closingFence ++ ['\n', '\n']), ?_⟩⟩ <;>
    simp [hip, htp, impl_make_initial_prompt, test_make_initial_prompt,
      wrap_code_in_markdown, List.append_assoc]

/-- Witness for C6 on concrete empty-history requests. -/
theorem initial_prompt_uses_interface_witness :
    (ImplGenerationRequest.mk "iface-i".toList "tests-i".toList []).prior_attempts = [] ∧
    (TestGenerationRequest.mk "iface-t".toList []).prior_attempts = [] ∧
    (impl_prompt_for_request (ImplGenerationRequest.mk "iface-i".toList "tests-i".toList []) =
        impl_make_initial_prompt "iface-i".toList "tests-i".toList ∧
      (∃ u v, impl_prompt_for_request
          (ImplGenerationRequest.mk "iface-i".toList "tests-i".toList []) =
          u ++ "iface-i".toList ++ v) ∧
      test_prompt_for_request (TestGenerationRequest.mk "iface-t".toList []) =
        test_make_initial_prompt "iface-t".toList ∧
      (∃ u v, test_prompt_for_request (TestGenerationRequest.mk "iface-t".toList []) =
          u ++ "iface-t".toList ++ v)) :=
  ⟨rfl, rfl, initial_prompt_uses_interface _ _ rfl rfl⟩


/-! ## Helper lemmas about `run_tests` -/

theorem mem_joinNl (ls : List PyStr) (l : PyStr) (h : l ∈ ls) :
    ∃ u v, joinNl ls = u ++ l ++ v := by
  induction ls with
  | nil => exact absurd h (List.not_mem_nil l)
  | cons x xs ih =>
    rcases List.mem_cons.mp h with hx | hx
    · subst hx
      cases xs with
      | nil => exact ⟨[], [], by simp [joinNl]⟩
      | cons y ys =>
        refine ⟨[], '\n' :: joinNl (y :: ys), ?_⟩
        show l ++ '\n' :: joinNl (y :: ys) = [] ++ l ++ '\n' :: joinNl (y :: ys)
        simp
    · cases xs with
      | nil => exact absurd hx (List.not_mem_nil l)
      | cons y ys =>
        obtain ⟨u, v, huv⟩ := ih hx
        refine ⟨x ++ '\n' :: u, v, ?_⟩
        show x ++ '\n' :: joinNl (y :: ys) = (x ++ '\n' :: u) ++ l ++ v
        rw [huv]
        simp

theorem joinNl_piece (ls : List PyStr) (pre mid : PyStr) (h : pre ++ mid ∈ ls) :
    ∃ u v, joinNl ls = u ++ mid ++ v := by
  obtain ⟨u, v, huv⟩ := mem_joinNl ls _ h
  exact ⟨u ++ pre, v, by rw [huv]; simp [List.append_assoc]⟩

theorem joinNl_cons_ne_nil (x : PyStr) (xs : List PyStr) (h : x ≠ []) :
    joinNl (x :: xs) ≠ [] := by
  cases xs with
  | nil => simpa [joinNl] using h
  | cons y ys =>
    show x ++ '\n' :: joinNl (y :: ys) ≠ []
    simp [h]

/-- C9 amended: `run_tests` returns passed with an empty diagnostic whenever the result was
successful; on an unsuccessful result it returns `passed = False` and a
diagnostic that aggregates every erroring and every failing test case, each
with its test identifier and its detail text, and that diagnostic is
non-empty provided at least one error or failure was recorded.  (The
original claim direction of empty-exactly-when-passed fails for an unsuccessful
result with no recorded errors or failures — reachable in `unittest`
through unexpected successes — where the diagnostic is empty with
`passed = False`.) -/
theorem run_tests_aggregates (r : TextTestResult) :
    (r.wasSuccessful = true → run_tests r = (true, [])) ∧
    (r.wasSuccessful = false →
      (run_tests r).fst = false ∧
      ((r.errors ≠ [] ∨ r.failures ≠ []) → (run_tests r).snd ≠ []) ∧
      (∀ p ∈ r.errors,
        (∃ u v, (run_tests r).snd = u ++ p.fst ++ v) ∧
        (∃ u v, (run_tests r).snd = u ++ p.snd ++ v)) ∧
      (∀ p ∈ r.failures,
        (∃ u v, (run_tests r).snd = u ++ p.fst ++ v) ∧
        (∃ u v, (run_tests r).snd = u ++ p.snd ++ v))) := by
  refine ⟨fun hs => by simp [run_tests, hs], fun hs => ?_⟩
  have hsnd : (run_tests r).snd = joinNl (errorLines r ++ failureLines r) := by
    simp [run_tests, hs]
  refine ⟨by simp [run_tests, hs], ?_, ?_, ?_⟩
  · intro hne
    rw [hsnd]
    by_cases he : r.errors = []
    · have hf : r.failures ≠ [] := by
        rcases hne with hne | hne
        · exact absurd he hne
        · exact hne
      rw [show errorLines r = [] from by simp [errorLines, he], List.nil_append]
      rw [show failureLines r = "\nFailures:".toList ::
          (r.failures.map
            (fun p => ["  Test: ".toList ++ p.fst, "  Failure: ".toList ++ p.snd])).flatten
        from by simp [failureLines, hf]]
      exact joinNl_cons_ne_nil _ _ (by decide)
    · rw [show errorLines r = "\nErrors:".toList ::
          (r.errors.map
            (fun p => ["  Test: ".toList ++ p.fst, "  Error: ".toList ++ p.snd])).flatten
        from by simp [errorLines, he], List.cons_append]
      exact joinNl_cons_ne_nil _ _ (by decide)
  · intro p hp
    have hne : r.errors ≠ [] := fun he => by
      rw [he] at hp
      exact absurd hp (List.not_mem_nil p)
    have hflat : ∀ e ∈ ["  Test: ".toList ++ p.fst, "  Error: ".toList ++ p.snd],
        e ∈ errorLines r ++ failureLines r := by
      intro e he
      apply List.mem_append_left
      rw [show errorLines r = "\nErrors:".toList ::
          (r.errors.map
            (fun q => ["  Test: ".toList ++ q.fst, "  Error: ".toList ++ q.snd])).flatten
        from by simp [errorLines, hne]]
      exact List.mem_cons_of_mem _
        (List.mem_flatten.mpr ⟨_, List.mem_map_of_mem _ hp, he⟩)
    rw [hsnd]
    exact ⟨joinNl_piece _ "  Test: ".toList p.fst
        (hflat ("  Test: ".toList ++ p.fst) (by simp)),
      joinNl_piece _ "  Error: ".toList p.snd
        (hflat ("  Error: ".toList ++ p.snd) (by simp))⟩
  · intro p hp
    have hne : r.failures ≠ [] := fun he => by
      rw [he] at hp
      exact absurd hp (List.not_mem_nil p)
    have hflat : ∀ e ∈ ["  Test: ".toList ++ p.fst, "  Failure: ".toList ++ p.snd],
        e ∈ errorLines r ++ failureLines r := by
      intro e he
      apply List.mem_append_right
      rw [show failureLines r = "\nFailures:".toList ::
          (r.failures.map
            (fun q => ["  Test: ".toList ++ q.fst, "  Failure: ".toList ++ q.snd])).flatten
        from by simp [failureLines, hne]]
      exact List.mem_cons_of_mem _
        (List.mem_flatten.mpr ⟨_, List.mem_map_of_mem _ hp, he⟩)
    rw [hsnd]
    exact ⟨joinNl_piece _ "  Test: ".toList p.fst
        (hflat ("  Test: ".toList ++ p.fst) (by simp)),
      joinNl_piece _ "  Failure: ".toList p.snd
        (hflat ("  Failure: ".toList ++ p.snd) (by simp))⟩

/-- Counterexample to C9 as stated: an unsuccessful result with no recorded
errors or failures (as `unittest` produces when only unexpected successes
occur) yields an empty diagnostic with `passed = False`, so the diagnostic
is not empty "exactly when" the run passed. -/
theorem run_tests_empty_diag_counterexample :
    (run_tests (TextTestResult.mk false [] [])).fst = false ∧
      (run_tests (TextTestResult.mk false [] [])).snd = [] := by
  refine ⟨by decide, by decide⟩

/-- Witness for the amended C9 on a result with one error and one failure. -/
theorem run_tests_aggregates_witness :
    (TextTestResult.mk false [("tE".toList, "eD".toList)]
        [("tF".toList, "fD".toList)]).wasSuccessful = false ∧
    ((run_tests (TextTestResult.mk false [("tE".toList, "eD".toList)]
        [("tF".toList, "fD".toList)])).fst = false ∧
      (((TextTestResult.mk false [("tE".toList, "eD".toList)]
          [("tF".toList, "fD".toList)]).errors ≠ [] ∨
        (TextTestResult.mk false [("tE".toList, "eD".toList)]
          [("tF".toList, "fD".toList)]).failures ≠ []) →
        (run_tests (TextTestResult.mk false [("tE".toList, "eD".toList)]
          [("tF".toList, "fD".toList)])).snd ≠ []) ∧
      (∀ p ∈ (TextTestResult.mk false [("tE".toList, "eD".toList)]
          [("tF".toList, "fD".toList)]).errors,
        (∃ u v, (run_tests (TextTestResult.mk false [("tE".toList, "eD".toList)]
            [("tF".toList, "fD".toList)])).snd = u ++ p.fst ++ v) ∧
        (∃ u v, (run_tests (TextTestResult.mk false [("tE".toList, "eD".toList)]
            [("tF".toList, "fD".toList)])).snd = u ++ p.snd ++ v)) ∧
      (∀ p ∈ (TextTestResult.mk false [("tE".toList, "eD".toList)]
          [("tF".toList, "fD".toList)]).failures,
        (∃ u v, (run_tests (TextTestResult.mk false [("tE".toList, "eD".toList)]
            [("tF".toList, "fD".toList)])).snd = u ++ p.fst ++ v) ∧
        (∃ u v, (run_tests (TextTestResult.mk false [("tE".toList, "eD".toList)]
            [("tF".toList, "fD".toList)])).snd = u ++ p.snd ++ v))) :=
  ⟨rfl, (run_tests_aggregates
    (TextTestResult.mk false [("tE".toList, "eD".toList)]
      [("tF".toList, "fD".toList)])).2 rfl⟩
